import Mathlib

/-!
Verification development for the weekly anesthesiologist-scheduling system
(IDeLM-APAP). The definitions below are shallow embeddings of the Python
source under `src/code/`; each theorem settles one claim of the
specification against those embeddings.

Conventions used throughout:
* Python `datetime.date` values are modelled by their proleptic-Gregorian
  ordinal (`date.toordinal()`), an integer; `date(1,1,1)` has ordinal 1 and
  is a Monday, so `weekday = (ordinal + 6) % 7` with Monday = 0, exactly as
  in CPython.
* Python dictionaries are modelled as association lists with distinct keys;
  assignment `d[k] = v` is `dictInsert` (update in place, else append),
  lookup is `List.lookup`.
* Machine floats that carry exact decimal constants (0.1, 0.001, …) are
  modelled as rationals.
-/

namespace APAP

/-! ## Generic helpers: Python-style list/dict operations -/

/-- Insert `a` into an already sorted list, keeping the order given by the
boolean comparator `le` (insertion sort step). -/
def insertBy {α : Type} (le : α → α → Bool) (a : α) : List α → List α
  | [] => [a]
  | b :: bs => if le a b then a :: b :: bs else b :: insertBy le a bs

/-- Stable insertion sort by the boolean comparator `le`; models Python's
`sorted(...)` (order of ties is irrelevant for every use below, since all
sorted keys are distinct). -/
def sortBy {α : Type} (le : α → α → Bool) : List α → List α
  | [] => []
  | a :: as => insertBy le a (sortBy le as)

/-- Python dictionary assignment `d[k] = v` on an association list: replace
the value of the first entry with key `k`, or append a new entry. -/
def dictInsert {α β : Type} [BEq α] (d : List (α × β)) (k : α) (v : β) :
    List (α × β) :=
  match d with
  | [] => [(k, v)]
  | (k0, v0) :: rest =>
      if k0 == k then (k0, v) :: rest else (k0, v0) :: dictInsert rest k v

/-- Keys of an association list. -/
def dictKeys {α β : Type} (d : List (α × β)) : List α := d.map Prod.fst

/-! ## Calendar (embedding of `src/code/data/utils.py`)

Dates are proleptic-Gregorian ordinals (`ℤ`).  The functions below
translate `holidays_that_year`, `custom_holidays`, `is_workday` and
`generate_dates`; the year/month/day to ordinal conversion embeds the
arithmetic of CPython's `datetime` module, which those functions call. -/

/-- Leap-year test of the Gregorian calendar (CPython `datetime._is_leap`). -/
def isLeapYear (y : ℕ) : Bool := y % 4 == 0 && (y % 100 != 0 || y % 400 == 0)

/-- Number of days in month `m` of year `y` (CPython `_days_in_month`). -/
def daysInMonth (y m : ℕ) : ℕ :=
  if m = 2 then (if isLeapYear y then 29 else 28)
  else if m = 4 ∨ m = 6 ∨ m = 9 ∨ m = 11 then 30 else 31

/-- Number of days before January 1st of year `y` (CPython
`_days_before_year`). -/
def daysBeforeYear (y : ℕ) : ℕ :=
  365 * (y - 1) + (y - 1) / 4 - (y - 1) / 100 + (y - 1) / 400

/-- Number of days in year `y` strictly before month `m` (CPython
`_days_before_month`). -/
def daysBeforeMonth (y m : ℕ) : ℕ :=
  (List.range' 1 (m - 1)).foldl (fun acc mm => acc + daysInMonth y mm) 0

/-- Ordinal of the date `(y, m, d)` (CPython `date.toordinal`);
`ymd2ord 1 1 1 = 1`. -/
def ymd2ord (y m d : ℕ) : ℤ := (daysBeforeYear y + daysBeforeMonth y m + d : ℕ)

/-- Weekday of an ordinal with Monday = 0 … Sunday = 6 (CPython
`date.weekday`). -/
def weekday (n : ℤ) : ℤ := (n + 6) % 7

/-- Year of the date with ordinal `n` (year part of CPython `_ord2ymd`). -/
def ordYear (n : ℤ) : ℤ :=
  let n0 := n - 1
  let n400 := n0 / 146097
  let r400 := n0 % 146097
  let n100 := r400 / 36524
  let r100 := r400 % 36524
  let n4 := r100 / 1461
  let r4 := r100 % 1461
  let n1 := r4 / 365
  let y := 400 * n400 + 100 * n100 + 4 * n4 + n1 + 1
  if n1 = 4 ∨ n100 = 4 then y - 1 else y

/-- Embedding of `generate_dates(start, end)`: the list of ordinals from
`s` to `e` inclusive (CPython source: `[start + timedelta(i) for i in
range((end-start).days + 1)]`, with the `start == end` case special-cased
first). -/
def generateDates (s e : ℤ) : List ℤ :=
  if s = e then [s]
  else (List.range (e - s + 1).toNat).map (fun i => s + (i : ℤ))

/-- Embedding of the inner helper `fixed_date_holidays(holiday)` of
`holidays_that_year`: the extended long-weekend span `(start, end)` of a
fixed-date holiday, decided by the weekday the holiday falls on.  The final
branch corresponds to `day_of_week == 6` (the weekday is always in 0..6). -/
def fixedSpan (h : ℤ) : ℤ × ℤ :=
  let wd := weekday h
  if 1 ≤ wd ∧ wd ≤ 3 then (h, h)
  else if wd = 0 then (h - 2, h)
  else if wd = 4 then (h, h + 2)
  else if wd = 5 then (h - 1, h + 1)
  else (h - 1, h + 1)

/-- Embedding of `memorial_day_weekend()`: Saturday to the last Monday of
May. -/
def memorialSpan (y : ℕ) : ℤ × ℤ :=
  let lastMay := ymd2ord y 5 31
  let e := lastMay - weekday lastMay
  (e - 2, e)

/-- Embedding of `labor_day_weekend()`: Saturday to the first Monday of
September. -/
def laborSpan (y : ℕ) : ℤ × ℤ :=
  let first := ymd2ord y 9 1
  let daysToAdd := (7 - weekday first) % 7
  let e := ymd2ord y 9 (1 + daysToAdd).toNat
  (e - 2, e)

/-- Embedding of `thanksgiving_weekend()`: fourth Thursday of November to
the following Sunday. -/
def thanksgivingSpan (y : ℕ) : ℤ × ℤ :=
  let first := ymd2ord y 11 1
  let fourth := (22 + (3 - weekday first) % 7).toNat
  let s := ymd2ord y 11 fourth
  (s, s + 3)

/-- Embedding of `holidays_that_year(year)`: each holiday name mapped to
the list of dates of its extended span. -/
def holidaysThatYear (y : ℕ) : List (String × List ℤ) :=
  [ ("New Years", generateDates (fixedSpan (ymd2ord y 1 1)).1
      (fixedSpan (ymd2ord y 1 1)).2),
    ("Memorial Day", generateDates (memorialSpan y).1 (memorialSpan y).2),
    ("Independence Day", generateDates (fixedSpan (ymd2ord y 7 4)).1
      (fixedSpan (ymd2ord y 7 4)).2),
    ("Labor Day", generateDates (laborSpan y).1 (laborSpan y).2),
    ("Thanksgiving", generateDates (thanksgivingSpan y).1
      (thanksgivingSpan y).2),
    ("Christmas", generateDates (fixedSpan (ymd2ord y 12 25)).1
      (fixedSpan (ymd2ord y 12 25)).2) ]

/-- Embedding of `custom_holidays(input_date)`: the date-keyed holiday table
for the year of `n`, namely the spans of `holidays_that_year` overlaid with
the user-supplied special-holidays table (a data file, modelled as the
parameter `special`) filtered to the same year. -/
def customHolidays (special : List (ℤ × String)) (n : ℤ) :
    List (ℤ × String) :=
  let specialFiltered := special.filter (fun p => ordYear p.1 == ordYear n)
  let base := (holidaysThatYear (ordYear n).toNat).foldl
    (fun acc nd => nd.2.foldl (fun acc2 d => dictInsert acc2 d nd.1) acc) []
  specialFiltered.foldl (fun acc p => dictInsert acc p.1 p.2) base

/-- Embedding of `is_workday(input_date)`: `(False, label)` on a holiday,
`(False, None)` on Saturday/Sunday, else `(True, None)`. -/
def isWorkday (special : List (ℤ × String)) (n : ℤ) : Bool × Option String :=
  match List.lookup n (customHolidays special n) with
  | some name => (false, some name)
  | none => if weekday n ≥ 5 then (false, none) else (true, none)

/-! ## JSON-like values and the Python comparison semantics

Embedding of the value universe the quarterly week splitter
(`src/code/data/quarterly_json_week_splitter.py`) operates on.  `pnan` is
the float NaN (the only non-reflexive value under Python `==`); exact
decimal floats are modelled as rationals. -/

inductive PyVal : Type where
  | pnone : PyVal
  | pbool : Bool → PyVal
  | pint : ℤ → PyVal
  | pfloat : ℚ → PyVal
  | pnan : PyVal
  | pstr : String → PyVal
  | plist : List PyVal → PyVal
  | pdict : List (String × PyVal) → PyVal

/-- Numeric value of a Python object for cross-type numeric equality
(`True == 1`, `1 == 1.0`); `NaN` has none (it equals nothing). -/
def numVal : PyVal → Option ℚ
  | .pbool b => some (if b then 1 else 0)
  | .pint n => some (n : ℚ)
  | .pfloat q => some q
  | _ => none

mutual
/-- Python `==` on embedded values: structural on strings, lists and dicts
(dicts: equal length and every key of the left dict present in the right
with `==` values — CPython `dict_equal`), numeric across number types, and
false on `NaN` against anything including itself. -/
def pyEq : PyVal → PyVal → Bool
  | .pnone, .pnone => true
  | .pstr a, .pstr b => a == b
  | .plist a, .plist b => pyEqList a b
  | .pdict a, .pdict b => a.length == b.length && pyEqEntries a b
  | a, b =>
      match numVal a, numVal b with
      | some x, some y => x == y
      | _, _ => false
termination_by a b => (sizeOf a + sizeOf b, 1)
decreasing_by all_goals (simp_wf; omega)

def pyEqList : List PyVal → List PyVal → Bool
  | [], [] => true
  | a :: as, b :: bs => pyEq a b && pyEqList as bs
  | _, _ => false
termination_by a b => (sizeOf a + sizeOf b, 0)
decreasing_by all_goals (simp_wf; omega)

def pyEqEntries : List (String × PyVal) → List (String × PyVal) → Bool
  | [], _ => true
  | (k, v) :: rest, d2 => pyEqFind k v d2 && pyEqEntries rest d2
termination_by a b => (sizeOf a + sizeOf b, 0)
decreasing_by all_goals (simp_wf; omega)

def pyEqFind : String → PyVal → List (String × PyVal) → Bool
  | _, _, [] => false
  | k, v, (k2, v2) :: rest => if k == k2 then pyEq v v2 else pyEqFind k v rest
termination_by _ v d => (sizeOf v + sizeOf d, 0)
decreasing_by all_goals (simp_wf; omega)
end

/-- Key sets of two dicts compared as sets
(`set(dict1.keys()) == set(dict2.keys())` in `compare_dicts`). -/
def keysetEq (d1 d2 : List (String × PyVal)) : Bool :=
  decide ((d1.map Prod.fst).toFinset = (d2.map Prod.fst).toFinset)

/-- Test for `isinstance(v, float) and math.isnan(v)`: only the NaN float. -/
def isNanFloat : PyVal → Bool
  | .pnan => true
  | _ => false

mutual
/-- Embedding of `compare_dicts(dict1, dict2)` of
`src/code/data/quarterly_json_week_splitter.py`: key sets must agree, and
each value of `dict1` is compared with the value of `dict2` at the same
key — recursively when both are dicts, by Python `!=` otherwise with a
NaN/NaN pair accepted. -/
def cmpDict (d1 d2 : List (String × PyVal)) : Bool :=
  keysetEq d1 d2 && cmpEntries d1 d2
termination_by (sizeOf d1 + sizeOf d2, 3)
decreasing_by all_goals omega

def cmpEntries : List (String × PyVal) → List (String × PyVal) → Bool
  | [], _ => true
  | (k, v1) :: rest, d2 => cmpLookup k v1 d2 && cmpEntries rest d2
termination_by a b => (sizeOf a + sizeOf b, 2)
decreasing_by all_goals (simp_wf; omega)

def cmpLookup : String → PyVal → List (String × PyVal) → Bool
  | _, _, [] => false
  | k, v1, (k2, v2) :: rest =>
      if k == k2 then cmpEntry v1 v2 else cmpLookup k v1 rest
termination_by _ v d => (sizeOf v + sizeOf d, 1)
decreasing_by all_goals (simp_wf; omega)

def cmpEntry : PyVal → PyVal → Bool
  | .pdict a, .pdict b => cmpDict a b
  | v1, v2 => if pyEq v1 v2 then true else (isNanFloat v1 && isNanFloat v2)
termination_by a b => (sizeOf a + sizeOf b, 0)
decreasing_by all_goals (simp_wf; omega)
end

/-! ## Quarterly week splitter (embedding of
`src/code/data/quarterly_json_week_splitter.py`)

The quarterly input is a year → month-name → day-of-month nested mapping;
year and day keys are decimal strings in the JSON file and are modelled as
numerals (the code applies `int(...)` to them; Python iterates the keys in
lexicographic sorted order, ours in numeric order — the resulting
dictionaries are the same, only their insertion order can differ, and no
statement below depends on insertion order). -/

/-- Lexicographic comparison of character lists (Python string `<=` is
code-point lexicographic). -/
def charListLe : List Char → List Char → Bool
  | [], _ => true
  | _ :: _, [] => false
  | a :: as, b :: bs =>
      if a < b then true else if b < a then false else charListLe as bs

/-- Python `<=` on strings. -/
def strLe (a b : String) : Bool := charListLe a.data b.data

/-- One week's worth of output: a date-string keyed dictionary. -/
abbrev PyDict : Type := List (String × PyVal)

/-- The quarterly input: year → month-name → day-of-month → day record. -/
abbrev QData : Type := List (ℕ × List (String × List (ℕ × PyVal)))

/-- Replace the value at the first entry with key `k` (Python mutation of
an existing dict slot). -/
def dictUpdate {β : Type} (d : List (String × β)) (k : String)
    (f : β → β) : List (String × β) :=
  match d with
  | [] => []
  | (k0, v) :: rest =>
      if k0 == k then (k0, f v) :: rest else (k0, v) :: dictUpdate rest k f

/-- Embedding of `month_name_to_number`; an unknown month name raises
`KeyError` in Python and is excluded wherever the function is used below. -/
def monthNum (m : String) : ℕ :=
  (List.lookup m
    [("Jan", 1), ("Feb", 2), ("Mar", 3), ("Apr", 4), ("May", 5), ("Jun", 6),
     ("Jul", 7), ("Aug", 8), ("Sep", 9), ("Oct", 10), ("Nov", 11),
     ("Dec", 12)]).getD 0

/-- Ordinal of the Monday of ISO week 1 of year `y` (CPython
`_isoweek1monday`). -/
def isoweek1monday (y : ℕ) : ℤ :=
  let firstday := ymd2ord y 1 1
  let firstweekday := (firstday + 6) % 7
  let week1monday := firstday - firstweekday
  if firstweekday > 3 then week1monday + 7 else week1monday

/-- ISO (year, week) of the date `(y, m, d)` (CPython `date.isocalendar`;
`fdiv` is Python floor division). -/
def isocalendar (y m d : ℕ) : ℤ × ℤ :=
  let today := ymd2ord y m d
  let week := (today - isoweek1monday y).fdiv 7
  if week < 0 then ((y : ℤ) - 1, (today - isoweek1monday (y - 1)).fdiv 7 + 1)
  else if week ≥ 52 then
    if today ≥ isoweek1monday (y + 1) then ((y : ℤ) + 1, 1)
    else ((y : ℤ), week + 1)
  else ((y : ℤ), week + 1)

/-- Two-digit zero padding of a natural number (`f"{n:02}"`). -/
def pad2 (n : ℕ) : String := if n < 10 then "0" ++ toString n else toString n

/-- Two-digit zero padding of a nonnegative integer (`f"{n:02}"`). -/
def pad2Z (n : ℤ) : String := if n < 10 then "0" ++ toString n else toString n

/-- Date key `current_date.strftime('%Y-%m-%d')`, which for the years
1000–9999 used below coincides with the f-string key of `flatten_dict`. -/
def dateKeyStr (y m d : ℕ) : String :=
  toString y ++ "-" ++ pad2 m ++ "-" ++ pad2 d

/-- Inserting `weekly_data[week_key][date_key] = rec` with
`weekly_data.setdefault(week_key, {})` semantics. -/
def dictInsert2 (wd : List (String × PyDict)) (wk dk : String)
    (rec : PyVal) : List (String × PyDict) :=
  let wd1 := if (List.lookup wk wd).isSome then wd else wd ++ [(wk, [])]
  dictUpdate wd1 wk (fun w => dictInsert w dk rec)

/-- Embedding of `split_into_weeks(data)` of
`src/code/data/quarterly_json_week_splitter.py`.  The fold state is the
pair of the weekly dictionary under construction and the current value of
the Python variable `year`: the source line
`year, week_number = current_date.isocalendar()[0], ...` overwrites the
outer loop variable `year`, so each subsequent day of the same calendar
year is built from the ISO year of the previous date (the outer
`for year, months in sorted(data.items())` rebinds it at every year key).
This clobbering is faithfully reproduced here. -/
def splitIntoWeeks (data : QData) : List (String × PyDict) :=
  ((sortBy (fun a b => Nat.ble a.1 b.1) data).foldl
    (fun (st : List (String × PyDict) × ℤ) ym =>
      (sortBy (fun a b => strLe a.1 b.1) ym.2).foldl
        (fun st2 md =>
          (sortBy (fun a b => Nat.ble a.1 b.1) md.2).foldl
            (fun st3 dr =>
              let y := st3.2.toNat
              let m := monthNum md.1
              let iso := isocalendar y m dr.1
              let wk := toString iso.1 ++ "-week" ++ pad2Z iso.2
              let dk := dateKeyStr y m dr.1
              (dictInsert2 st3.1 wk dk dr.2, iso.1))
            st2)
        (st.1, (ym.1 : ℤ)))
    ([], 0)).1

/-- Embedding of `save_weekly_data(weekly_data, outdir)`: each week saved
under its key as filename (the `outdir` path prefix is omitted;
`write_json` appends `.json`), sorted by week key, the week's dates sorted;
the `-partial` suffix is appended when `len(weekly_data) < 7` — the number
of weeks in the whole output, as in the source. -/
def saveWeeklyData (weekly : List (String × PyDict)) :
    List (String × PyDict) :=
  (sortBy strLe (weekly.map Prod.fst)).map (fun wk =>
    let weekValues := sortBy (fun a b => strLe a.1 b.1)
      ((List.lookup wk weekly).getD [])
    let fn := if weekly.length < 7 then wk ++ "-partial" else wk
    (fn ++ ".json", weekValues))

/-- Embedding of `flatten_dict(data)`: the quarterly input flattened to a
date-string keyed dictionary. -/
def flattenDict (data : QData) : PyDict :=
  data.foldl (fun acc ym =>
    ym.2.foldl (fun acc2 md =>
      md.2.foldl (fun acc3 dr =>
        dictInsert acc3 (dateKeyStr ym.1 (monthNum md.1) dr.1) dr.2)
        acc2)
      acc)
    []

/-- Processing of one `(date, day-record)` pair inside
`combine_weekly_data`: the record must be a dict of dicts (otherwise the
Python `.items()` call raises `AttributeError`); its two top levels are
rebuilt entry by entry into the accumulator. -/
def combineDay (acc : PyDict) (date : String) (rec : PyVal) :
    Except String PyDict :=
  match rec with
  | .pdict es =>
      let acc1 := if (List.lookup date acc).isSome then acc
        else acc ++ [(date, .pdict [])]
      es.foldlM (fun a kv =>
        match kv.2 with
        | .pdict es2 =>
            let a1 := dictUpdate a date (fun w =>
              match w with
              | .pdict m => .pdict (if (List.lookup kv.1 m).isSome then m
                  else m ++ [(kv.1, .pdict [])])
              | o => o)
            Except.ok (es2.foldl (fun a2 kv2 =>
              dictUpdate a2 date (fun w =>
                match w with
                | .pdict m => .pdict (dictUpdate m kv.1 (fun w2 =>
                    match w2 with
                    | .pdict inner => .pdict (dictInsert inner kv2.1 kv2.2)
                    | o2 => o2))
                | o => o)) a1)
        | _ => Except.error "AttributeError") acc1
  | _ => Except.error "AttributeError"

/-- Embedding of `combine_weekly_data(files)`: the written week files, in
the order returned by `save_weekly_data`, recombined into one date-keyed
dictionary. -/
def combineWeekly (weeks : List PyDict) : Except String PyDict :=
  weeks.foldlM (fun acc week =>
    week.foldlM (fun a dr => combineDay a dr.1 dr.2) acc) []

/-! ## Doctor schedule (embedding of `src/code/data/schedule.py`)

`DoctorSchedule` is constructed from the transposed derived-week
dictionary.  Raw per-day values of the eight TURN_ORDER fields are null, a
scalar doctor string, or a list of doctor strings; the other fields are as
in the JSON schema.  The `Doctors` staff registry is loaded from a data
file (`staff.csv`) outside the code and is therefore a parameter
(`Staff`).  Python dictionaries keyed by the day name are modelled
positionally (by day index); the validator's name-based lookups coincide
with the positional ones whenever the day names are distinct, as they are
in every derived week. -/

/-- Raw value of one TURN_ORDER field on one day. -/
inductive Entry : Type where
  | none : Entry
  | s : String → Entry
  | l : List String → Entry
deriving DecidableEq

/-- The eight TURN_ORDER shifts of `DoctorSchedule.TURN_ORDER`. -/
inductive TurnOrder : Type where
  | postCall | postHoliday | postLate | preCall
  | unassigned | onLate | onCall | admin
deriving DecidableEq

/-- `DoctorSchedule.TURN_ORDER`, in source order. -/
def TURN_ORDER : List TurnOrder :=
  [.postCall, .postHoliday, .postLate, .preCall,
   .unassigned, .onLate, .onCall, .admin]

/-- `ADMIN_POINTS = 8` of `src/code/data/schedule.py`. -/
def ADMIN_POINTS : ℕ := 8

/-- `ADMIN_IDENTIFIER = 'AD'` of `src/code/data/staff.py`. -/
def ADMIN_IDENTIFIER : String := "AD"

/-- `Doctors.unknown.ID = 'X'`, the placeholder physician. -/
def PLACEHOLDER : String := "X"

/-- The staff registry for the week (loaded from `staff.csv`, a data file;
`everyone` is sorted by construction in `Doctors.__init__`). -/
structure Staff : Type where
  everyone : List String
  chargeDoctors : List String
  cardiacDoctors : List String

/-- The transposed raw weekly dictionary consumed by
`DoctorSchedule._process_data`. -/
structure RawSched : Type where
  order : List String
  dayType : List String
  postCall : List Entry
  postHoliday : List Entry
  postLate : List Entry
  preCall : List Entry
  unassigned : List Entry
  onLate : List Entry
  onCall : List Entry
  admin : List Entry
  offsite : List (List String)
  doctors : List String
  periodStart : ℤ
deriving DecidableEq

/-- Field selector `rawdata[turn_order][d]` (out-of-range indices read as
null; the Python code only indexes `d < len(Order)`). -/
def RawSched.turn (r : RawSched) (t : TurnOrder) (d : ℕ) : Entry :=
  match t with
  | .postCall => r.postCall.getD d .none
  | .postHoliday => r.postHoliday.getD d .none
  | .postLate => r.postLate.getD d .none
  | .preCall => r.preCall.getD d .none
  | .unassigned => r.unassigned.getD d .none
  | .onLate => r.onLate.getD d .none
  | .onCall => r.onCall.getD d .none
  | .admin => r.admin.getD d .none

/-- Whether `pat` occurs in `hay` starting at its head. -/
def listStartsWith : List Char → List Char → Bool
  | _, [] => true
  | [], _ :: _ => false
  | a :: as, b :: bs => a == b && listStartsWith as bs

/-- Whether `pat` occurs anywhere in the character list. -/
def listHasSub (pat : List Char) : List Char → Bool
  | [] => listStartsWith [] pat
  | h :: t => listStartsWith (h :: t) pat || listHasSub pat t

/-- Python substring test `pat in s`. -/
def strContainsSub (s pat : String) : Bool := listHasSub pat.data s.data

/-- The `remove_placeholder` step of `transform_rawdata` on one raw
entry: on a list, `'AD' in lst` / `'X' in lst` are membership tests and
`.remove` deletes the first occurrence (a no-op combination when absent,
exactly `List.erase`); on a scalar string the same `in` is a substring
test, and when it succeeds the subsequent `.remove` call raises
`AttributeError` (strings have no `remove`). -/
def cleanEntry : Entry → Except String Entry
  | .none => .ok .none
  | .l xs => .ok (.l ((xs.erase ADMIN_IDENTIFIER).erase PLACEHOLDER))
  | .s v =>
      if strContainsSub v ADMIN_IDENTIFIER then .error "AttributeError"
      else if strContainsSub v PLACEHOLDER then .error "AttributeError"
      else .ok (.s v)

/-- The in-place `remove_placeholder` loop of `transform_rawdata` over
every day and every TURN_ORDER field.  `DoctorSchedule.__init__` copies
only the top-level mapping (`data_source.copy()` is shallow), so the
lists mutated here are the caller's own list objects: after construction
the caller observes exactly the field values of the returned record.
(The Python loop runs day-outer/turn-inner over the day indices; the
per-entry effects are independent, so mapping each field is the same
transformation.) -/
def mutateRaw (r : RawSched) : Except String RawSched := do
  let pc ← r.postCall.mapM cleanEntry
  let ph ← r.postHoliday.mapM cleanEntry
  let pl ← r.postLate.mapM cleanEntry
  let pr ← r.preCall.mapM cleanEntry
  let un ← r.unassigned.mapM cleanEntry
  let ol ← r.onLate.mapM cleanEntry
  let oc ← r.onCall.mapM cleanEntry
  let ad ← r.admin.mapM cleanEntry
  pure { r with postCall := pc, postHoliday := ph, postLate := pl,
                preCall := pr, unassigned := un, onLate := ol,
                onCall := oc, admin := ad }

/-- Doctors contributed by one entry in `get_working_doctors` (a null
value is appended as `None` and filtered afterwards). -/
def entryDoctors : Entry → List (Option String)
  | .none => [Option.none]
  | .s v => [some v]
  | .l xs => xs.map some

/-- Embedding of `get_working_doctors(day)`: every TURN_ORDER value of the
day, minus the placeholder, the admin sentinel and nulls. -/
def working (r : RawSched) (d : ℕ) : List String :=
  ((TURN_ORDER.map (fun t => entryDoctors (r.turn t d))).flatten).filterMap
    (fun o => match o with
      | some doc =>
          if doc ≠ PLACEHOLDER ∧ doc ≠ ADMIN_IDENTIFIER then some doc
          else Option.none
      | Option.none => Option.none)

/-- Embedding of `get_offsite_doctors(day)`. -/
def offsiteOn (r : RawSched) (d : ℕ) : List String :=
  (r.offsite.getD d []).filter (fun doc => doc ≠ PLACEHOLDER)

/-- Peel-point value of an assignment: a fixed integer, or the contiguous
range `range(lo, lo+k)` carried by every member of the Unassigned pool. -/
inductive Pt : Type where
  | i : ℕ → Pt
  | rng : ℕ → ℕ → Pt
deriving DecidableEq

/-- One `Assignment(doctor, points, shift)`. -/
structure Assign : Type where
  doctor : String
  pt : Pt
  shift : TurnOrder
deriving DecidableEq

/-- One step of the `current_tally` loop of `transform_rawdata`: a list
under `Admin` contributes fixed `ADMIN_POINTS` (no tally), any other list
contributes the shared range and advances the tally by its length, a
scalar contributes the tally value, null contributes nothing. -/
def assignStep (st : List Assign × ℕ) (te : TurnOrder × Entry) :
    List Assign × ℕ :=
  match te.2 with
  | .none => st
  | .s v => (st.1 ++ [⟨v, .i st.2, te.1⟩], st.2 + 1)
  | .l xs =>
      if te.1 = .admin then
        (st.1 ++ xs.map (fun x => ⟨x, .i ADMIN_POINTS, .admin⟩), st.2)
      else
        (st.1 ++ xs.map (fun x => ⟨x, .rng st.2 xs.length, te.1⟩),
         st.2 + xs.length)

/-- The `assignments[...][day]` lists of `transform_rawdata`, flattened in
TURN_ORDER order. -/
def dayAssignments (r : RawSched) (d : ℕ) : List Assign :=
  ((TURN_ORDER.map (fun t => (t, r.turn t d))).foldl assignStep ([], 1)).1

/-- The `preassigned[day]` mapping of `_process_data` (points of every
non-Unassigned, non-Admin assignment).  The point keys produced by scalar
entries are distinct increasing tallies, so the duplicate-points assert of
the source never fires here. -/
def preassigned (r : RawSched) (d : ℕ) : List (Pt × String) :=
  (dayAssignments r d).filterMap (fun a =>
    if a.shift ≠ .unassigned ∧ a.shift ≠ .admin then some (a.pt, a.doctor)
    else Option.none)

/-- `self.Whine[day]`: the (mutated, see `mutateRaw`) `Unassigned` list of
the day; the schema guarantees a list value. -/
def whine (r : RawSched) (d : ℕ) : List String :=
  match r.unassigned.getD d .none with
  | .l xs => xs
  | _ => []

/-- `self.call_doctors[day] = [OnCall[d], OnLate[d]]`, keeping scalar
values (null call slots disappear in the set intersections below exactly
as Python's `None` does). -/
def callScalars (r : RawSched) (d : ℕ) : List String :=
  [r.turn .onCall d, r.turn .onLate d].filterMap (fun e =>
    match e with
    | .s v => some v
    | _ => Option.none)

/-- `potential_charge_doctors[day] = (set(call) ∪ Whine) ∩ charge_doctors`
(as a duplicate-free list; Python materialises an unordered set). -/
def potentialCharge (staff : Staff) (r : RawSched) (d : ℕ) : List String :=
  ((callScalars r d ++ whine r d).filter
    (fun a => decide (a ∈ staff.chargeDoctors))).dedup

/-- `potential_cardiac_doctors[day] = set(call) ∩ cardiac_doctors`. -/
def potentialCardiac (staff : Staff) (r : RawSched) (d : ℕ) : List String :=
  ((callScalars r d).filter
    (fun a => decide (a ∈ staff.cardiacDoctors))).dedup

/-- Day indices classified `Workday` (`self.weekdays`). -/
def weekdayIdx (r : RawSched) : List ℕ :=
  (List.range r.order.length).filter (fun d => r.dayType.getD d "" == "Workday")

/-- Embedding of `charge_order[day]`: the Whine-pool size plus the number
of preassigned points below `len(Whine)+2`.  (A range-valued preassigned
key would raise `TypeError` on the `<` comparison in Python; it never
occurs for the scalar transition-role schedules considered below.) -/
def chargeOrder (r : RawSched) (d : ℕ) : ℕ :=
  (whine r d).length + ((preassigned r d).filter (fun p =>
    match p.1 with
    | .i o => decide (o < (whine r d).length + 2)
    | .rng _ _ => false)).length

/-- `list(points)[row]` of `get_doctor_points_for_day` /
`_process_data`: the `row`-th element of a range, or the fixed value. -/
def ptAt : Pt → ℕ → ℕ
  | .i n, _ => n
  | .rng lo _, i => lo + i

/-- The concrete peel positions handed to `solution['Whine'][day]` in
`_process_data`: the `i`-th Unassigned assignment receives
`list(a.points)[i]`. -/
def whinePoints (r : RawSched) (d : ℕ) : List ℕ :=
  (((dayAssignments r d).filter (fun a => a.shift == .unassigned)).enum).map
    (fun p => ptAt p.2.pt p.1)

/-- Embedding of `DoctorSchedule.validate()` on the (already mutated, see
`mutateRaw`) schedule: true exactly when the errors list stays empty.
The checks, in source order: potential charge and potential cardiac
doctors are non-empty on every workday; every TURN_ORDER key is present
(guaranteed by the record schema here); the sorted embedded doctor list
equals the registry; per day no duplicate working or offsite doctors, no
working/offsite overlap, and on workdays everyone is accounted for;
workday classification agrees with `is_workday` on the day's date; no
Admin doctor also sits in the Whine pool. -/
def validateOk (staff : Staff) (special : List (ℤ × String))
    (r : RawSched) : Bool :=
  ((weekdayIdx r).all (fun d => !(potentialCharge staff r d).isEmpty)) &&
  ((weekdayIdx r).all (fun d => !(potentialCardiac staff r d).isEmpty)) &&
  (sortBy strLe r.doctors == staff.everyone) &&
  ((List.range r.order.length).all (fun d =>
    decide ((working r d).Nodup) &&
    decide ((offsiteOn r d).Nodup) &&
    ((working r d).filter (fun x => decide (x ∈ offsiteOn r d))).isEmpty &&
    (!(d ∈ weekdayIdx r) ||
      (sortBy strLe staff.everyone ==
        sortBy strLe (working r d ++ offsiteOn r d))))) &&
  ((List.range r.order.length).all (fun d =>
    if d ∈ weekdayIdx r then (isWorkday special (r.periodStart + d)).1
    else !(isWorkday special (r.periodStart + d)).1)) &&
  ((List.range r.order.length).all (fun d =>
    ((dayAssignments r d).filter (fun a => a.shift == .admin)).all
      (fun a => !(decide (a.doctor ∈ whine r d)))))

/-- Test for a scalar-or-null raw entry (the shape every transition role
has in a derived week). -/
def Entry.scalarOrNone : Entry → Bool
  | .l _ => false
  | _ => true

/-- Number of filled transition roles before the Unassigned pool on day
`d` (the positions they consume in the tally). -/
def numPre (r : RawSched) (d : ℕ) : ℕ :=
  [r.turn .postCall d, r.turn .postHoliday d, r.turn .postLate d,
   r.turn .preCall d].countP (fun e => decide (e ≠ Entry.none))

/-- Concrete derived day for claim C4: Post-Call CC (one transition
role), Unassigned pool {DD, EE}, OnLate BB, OnCall AA. -/
def chargeEx : RawSched :=
  { order := ["Mon"], dayType := ["Workday"],
    postCall := [.s "CC"], postHoliday := [.none], postLate := [.none],
    preCall := [.none], unassigned := [.l ["DD", "EE"]],
    onLate := [.s "BB"], onCall := [.s "AA"], admin := [.none],
    offsite := [[]], doctors := ["AA", "BB", "CC", "DD", "EE"],
    periodStart := ymd2ord 2023 1 9 }

/-- Concrete derived week for claim C5: one valid Monday (2023-01-09) on
which AA (the only charge-capable and only cardiac-capable physician) is
OnCall with BB OnLate, so potential charge = potential cardiac = {AA}. -/
def valEx : RawSched :=
  { order := ["Mon"], dayType := ["Workday"],
    postCall := [.none], postHoliday := [.none], postLate := [.none],
    preCall := [.none], unassigned := [.l []],
    onLate := [.s "BB"], onCall := [.s "AA"], admin := [.none],
    offsite := [[]], doctors := ["AA", "BB"],
    periodStart := ymd2ord 2023 1 9 }

/-- Staff registry for `valEx`: only AA can be charge and cardiac. -/
def valStaff : Staff := ⟨["AA", "BB"], ["AA"], ["AA"]⟩

/-- Concrete quarterly input for claim C8: two day records on January 1
and 2, 2023 (day records shaped as the real data: a dict of per-shift
dicts). -/
def janSplitInput : QData :=
  [(2023, [("Jan",
    [(1, .pdict [("Mon", .pdict [("Call", .pstr "AA")])]),
     (2, .pdict [("Tue", .pdict [("Call", .pstr "BB")])])])])]

/-- The dictionary `combine_weekly_data` rebuilds from the files the
splitter writes for `janSplitInput` (the second day has been shifted to
the year 2022 by the splitter's clobbered `year` variable). -/
def combinedJanSplit : PyDict :=
  [("2022-01-02", .pdict [("Tue", .pdict [("Call", .pstr "BB")])]),
   ("2023-01-01", .pdict [("Mon", .pdict [("Call", .pstr "AA")])])]

/-- Concrete quarterly input for claim C9: nine days of 2023 spanning the
seven ISO weeks 2023-week01 … 2023-week07, with three day records in the
first week and one in each later week. -/
def sevenWeekInput : QData :=
  [(2023, [("Jan", [(4, .pdict []), (5, .pdict []), (6, .pdict []),
                    (9, .pdict []), (16, .pdict []), (23, .pdict []),
                    (30, .pdict [])]),
           ("Feb", [(6, .pdict []), (13, .pdict [])])])]

/-! ## Shift deriver (embedding of
`src/code/data/derive_shifts_from_schedule.py`, workday branch of
`generate_new_structure`)

One raw shift record carries the day's first and second call physicians
(possibly null), the admin count (a number or null) and the off-site
list.  For a workday the transition roles are derived from the
neighbouring records; `is_tomorrow` / `is_yesterday` say whether the next
(previous) workday is literally the adjacent date. -/

/-- One raw shift record (`today`, a neighbour's record, or a weekend
AM/PM record). -/
structure ShiftRec : Type where
  call1 : Option String
  call2 : Option String
  adminCount : Option ℤ
  offsite : List String
deriving DecidableEq

/-- The per-day record `generate_new_structure` emits. -/
structure DayOut : Type where
  onCall : Option String
  onLate : Option String
  postCall : Option String
  postHoliday : Option String
  postLate : Option String
  preCall : Option String
  preHoliday : Option String
  admin : Option (List String)
  offsiteOut : List String
deriving DecidableEq

/-- Python `x in offsite` for a possibly-null candidate (null is never an
element of a list of strings). -/
def optMem (o : Option String) (l : List String) : Bool :=
  match o with
  | some s => decide (s ∈ l)
  | none => false

/-- Python truthiness of a possibly-null string (`post_holiday and …`). -/
def optTruthy (o : Option String) : Bool :=
  match o with
  | some s => !(s == "")
  | none => false

/-- The emission guard `v if v not in offsite and v not in (on_call,
on_late) else None` shared by the PostLate, PreCall and PreHoliday
slots of the emitted record. -/
def guardRole (v : Option String) (off : List String)
    (oc ol : Option String) : Option String :=
  if ¬ optMem v off = true ∧ ¬(v = oc ∨ v = ol) then v else Option.none

/-- The PostHoliday emission guard, with the extra truthiness test
(`post_holiday and …`). -/
def guardRoleTruthy (v : Option String) (off : List String)
    (oc ol : Option String) : Option String :=
  if optTruthy v = true ∧ ¬ optMem v off = true ∧ ¬(v = oc ∨ v = ol) then v
  else Option.none

/-- The PostCall emission guard: only the off-site test
(`post_call if post_call not in offsite else None`). -/
def dropOffsite (v : Option String) (off : List String) : Option String :=
  if optMem v off = true then Option.none else v

/-- Embedding of the workday branch of `generate_new_structure` for one
date: derives the transition roles from the neighbour records, applies
the tie-breaks, filters the off-site list, and emits the day's record. -/
def deriveWorkday (today : ShiftRec) (isTomorrow : Bool)
    (nextWeekday : ShiftRec) (nextWeekendAM : ShiftRec)
    (isYesterday : Bool) (prevWeekday : ShiftRec)
    (prevWeekendAM : ShiftRec) (prevWeekendPM : ShiftRec) : DayOut :=
  let adm : Option (List String) :=
    match today.adminCount with
    | some n =>
        if n ≠ 0 ∧ 0 < n then some (List.replicate n.toNat ADMIN_IDENTIFIER)
        else Option.none
    | none => Option.none
  let on_call := today.call1
  let on_late := today.call2
  let pcph : Option String × Option String :=
    if !isTomorrow then (nextWeekendAM.call1, nextWeekendAM.call2)
    else (nextWeekday.call1, Option.none)
  let pre_holiday := pcph.2
  let pcplph : Option String × Option String × Option String :=
    if !isYesterday then
      let post_call := prevWeekendPM.call1
      let post_late := prevWeekendPM.call2
      let post_holiday0 := prevWeekendAM.call1
      let post_holiday :=
        if post_holiday0 = post_call ∨ post_holiday0 = post_late then
          Option.none
        else post_holiday0
      (post_call, post_late, post_holiday)
    else (prevWeekday.call1, prevWeekday.call2, Option.none)
  let post_call := pcplph.1
  let post_late := pcplph.2.1
  let post_holiday := pcplph.2.2
  let pre_call1 := if post_late = pcph.1 then Option.none else pcph.1
  let pre_call :=
    if pre_call1 = post_call ∨ pre_call1 = post_late ∨
        pre_call1 = post_holiday then Option.none
    else pre_call1
  let offsite := today.offsite.filter (fun doc =>
    (adm.isSome && decide (doc ∈ adm.getD [])) ||
    !(decide (some doc = on_call ∨ some doc = on_late)))
  { onCall := on_call, onLate := on_late,
    postCall := dropOffsite post_call offsite,
    postHoliday := guardRoleTruthy post_holiday offsite on_call on_late,
    postLate := guardRole post_late offsite on_call on_late,
    preCall := guardRole pre_call offsite on_call on_late,
    preHoliday := guardRole pre_holiday offsite on_call on_late,
    admin := adm, offsiteOut := offsite }

/-! ## Allocation model (embedding of
`src/code/models/allocation_model.py`)

`AllocData` is the data interface the model reads (`self.data`): the
attributes of the handler object the optimizer consumes.  Solver
variables are modelled by a valuation (`AllocVal`) assigning a rational
to every variable; the float constants of the source (0.1, 0.001, the
big-M) are exact decimals, modelled as rationals. -/

/-- The scheduling data the model reads. -/
structure AllocData : Type where
  workingDoctors : List String
  days : List String
  orders : List ℕ
  chargeDoctors : List String
  cardiacDoctors : List String
  whineOf : String → List String
  adminOf : String → List String
  onCallOf : String → String
  onLateOf : String → String

/-- `call_and_late_call_doctors[day]`: the day's two call physicians
(`DoctorSchedule._process_data` builds the call list as
`[OnCall[d], OnLate[d]]`; `DataHandler` stores the same two physicians
with the late-call first — only membership is ever used). -/
def callAndLateCallDoctors (data : AllocData) (day : String) :
    List String :=
  [data.onCallOf day, data.onLateOf day]

/-- A valuation of the decision variables. -/
structure AllocVal : Type where
  x : String → String → ℕ → ℚ
  y : String → ℚ
  z : String → String → ℚ
  w : String → String → ℚ
  centralValue : ℚ
  maxW : ℚ
  maxZ : ℚ
  maxWZ : ℚ

/-- Index set of the `DoctorOrderAssignment_x` variables created by
`addVars(working_doctors, days, orders)`. -/
def xVarIndices (data : AllocData) : List (String × String × ℕ) :=
  data.workingDoctors.flatMap (fun a =>
    data.days.flatMap (fun d => data.orders.map (fun o => (a, d, o))))

/-- Index set of the `DoctorCondition_y` variables: the source creates
one binary `y[doctor]` per working doctor (`addVars(working_doctors)`),
with no band-tolerance index. -/
def yVarIndices (data : AllocData) : List String := data.workingDoctors

/-- Modelled from the spec: the family of equity indicators the
specification describes, `y[ε, a]` for every tolerance
`ε ∈ {1, 0.5, 0.2}` and every working physician; stated only to be
compared with `yVarIndices`, the family the source actually creates. -/
def yVarIndicesSpec (data : AllocData) : List (ℚ × String) :=
  [(1 : ℚ), 1/2, 1/5].flatMap (fun eps =>
    data.workingDoctors.map (fun a => (eps, a)))

/-- Embedding of `AllocationModel._set_decision_variables`: after
creating the `x` variables the source runs three leftover debug `print`
calls and `assert 1==2`, which always raises `AssertionError` — the
remaining variables (`central_value`, `y`, `z`, `w`, `max_*`) are never
created. -/
def setDecisionVariables (data : AllocData) :
    Except String (List (String × String × ℕ)) :=
  let xIdx := xVarIndices data
  if 1 = 2 then .ok xIdx else .error "AssertionError: assert 1==2"

/-- Embedding of `AllocationModel.__init__`: `_set_decision_variables`
runs first; the remaining construction steps (`_calculate_total_order`,
the constraints and the objective, embedded below as standalone
definitions) are unreachable. -/
def allocInit (data : AllocData) :
    Except String (List (String × String × ℕ)) := do
  let x ← setDecisionVariables data
  pure x

/-- The raw total order of `_calculate_total_order`:
`sum(order * x[doctor, day, order])` over all days and orders. -/
def totalOrderBase (data : AllocData) (v : AllocVal) (doctor : String) :
    ℚ :=
  (data.days.map (fun day =>
    (data.orders.map (fun (o : ℕ) => (o : ℚ) * v.x doctor day o)).sum)).sum

/-- Number of admin slots credited to `doctor` by
`_adjust_total_order_for_admin_duties`: one per admin entry equal to the
doctor, provided the name is non-empty and the doctor is in the day's
Whine list. -/
def adminTally (data : AllocData) (doctor : String) : ℕ :=
  (data.days.map (fun day =>
    ((data.adminOf day).filter (fun doc =>
      decide (doc = doctor ∧ doc ≠ "" ∧ doc ∈ data.whineOf day))).length)).sum

/-- The adjusted total order: each credited admin slot adds `q = 8`. -/
def totalOrder (data : AllocData) (v : AllocVal) (doctor : String) : ℚ :=
  totalOrderBase data v doctor + 8 * (adminTally data doctor : ℚ)

/-- The big-M constant of `_add_constraints_for_doctor_order_equity`:
`len(days) * len(orders)` (and `orders` runs `1..max preassigned order`,
so this is the day count times the largest peel position). -/
def bigM (data : AllocData) : ℚ := (data.days.length : ℚ) * data.orders.length

/-- Embedding of the two constraint families of
`_add_constraints_for_doctor_order_equity` (a single band of half-width
one around `central_value`, linearised with big-M). -/
def equityConstraints (data : AllocData) (v : AllocVal) : Prop :=
  ∀ a ∈ data.workingDoctors,
    totalOrder data v a - (v.centralValue - 1) ≥
      -(bigM data) * (1 - v.y a) ∧
    (v.centralValue + 1) - totalOrder data v a ≥
      -(bigM data) * (1 - v.y a)

/-- The equity objective of `_set_objective`:
`sum(y[doctor] for doctor in working_doctors)` — an unweighted sum over
the single indicator family. -/
def equityObj (data : AllocData) (v : AllocVal) : ℚ :=
  (data.workingDoctors.map (fun a => v.y a)).sum

/-- The role-concentration objective `max_w + max_z + max_wz`. -/
def cardiacChargeObj (v : AllocVal) : ℚ := v.maxW + v.maxZ + v.maxWZ

/-- The charge-preference objective: `z[doctor, day]` summed over the
charge-capable doctors among the day's call and late-call doctors. -/
def priorityChargeObj (data : AllocData) (v : AllocVal) : ℚ :=
  (data.days.map (fun day =>
    ((data.chargeDoctors.filter (fun doctor =>
      decide (doctor ∈ callAndLateCallDoctors data day))).map
      (fun doctor => v.z doctor day)).sum)).sum

/-- Embedding of the combined objective of `_set_objective`, with the
source's weights: `alpha = 1`, `beta = 0.1`, `gamma = 0.001`. -/
def totalObj (data : AllocData) (v : AllocVal) : ℚ :=
  let alpha : ℚ := 1
  let beta : ℚ := 1 / 10
  let gamma : ℚ := 1 / 1000
  alpha * equityObj data v - beta * cardiacChargeObj v +
    gamma * priorityChargeObj data v

/-- Tiny data set for the claim C2 counterexample: no working doctors,
one day, one charge-capable doctor not on call. -/
def objExData : AllocData :=
  ⟨[], ["Mon"], [], ["AA"], [], fun _ => [], fun _ => [],
   fun _ => "BB", fun _ => "CC"⟩

/-- Valuation for the claim C2 counterexample: `max_w = 1`, everything
else zero. -/
def objExVal : AllocVal :=
  ⟨fun _ _ _ => 0, fun _ => 0, fun _ _ => 0, fun _ _ => 0, 0, 1, 0, 0⟩

/-- One-doctor data set for the claim C3 counterexample and witness. -/
def bandExData : AllocData :=
  ⟨["AA"], ["Mon"], [1], [], [], fun _ => ["AA"], fun _ => [],
   fun _ => "AA", fun _ => "BB"⟩

/-- Valuation for the claim C3 witness: AA takes order 1 on Monday,
`y[AA] = 1`, `central_value = 1`. -/
def bandExVal : AllocVal :=
  ⟨fun a d o => if a = "AA" ∧ d = "Mon" ∧ o = 1 then 1 else 0,
   fun _ => 1, fun _ _ => 0, fun _ _ => 0, 1, 0, 0, 0⟩

/-! ## Theorems -/

/-! ### Association-list lemmas -/

theorem lookup_isSome_dictInsert {α β : Type} [BEq α] [LawfulBEq α]
    (d : List (α × β)) (k : α) (v : β) (k' : α)
    (h : (List.lookup k' d).isSome = true) :
    (List.lookup k' (dictInsert d k v)).isSome = true := by
  induction d with
  | nil => simp [List.lookup] at h
  | cons hd tl ih =>
      obtain ⟨k0, v0⟩ := hd
      simp only [List.lookup] at h
      cases hk : (k0 == k) <;> cases hk' : (k' == k0) <;>
        simp only [hk, hk'] at h ⊢ <;>
        simp [dictInsert, hk, hk', List.lookup, ih, h]

theorem lookup_isSome_dictInsert_self {α β : Type} [BEq α] [LawfulBEq α]
    (d : List (α × β)) (k : α) (v : β) :
    (List.lookup k (dictInsert d k v)).isSome = true := by
  induction d with
  | nil => simp [dictInsert, List.lookup]
  | cons hd tl ih =>
      obtain ⟨k0, v0⟩ := hd
      cases hk : (k0 == k)
      · cases hk' : (k == k0)
        · simp [dictInsert, hk, List.lookup, hk', ih]
        · simp [dictInsert, hk, List.lookup, hk']
      · have : k = k0 := (eq_of_beq hk).symm
        simp [dictInsert, hk, List.lookup, this]

theorem lookup_isSome_foldl_dictInsert {ι α β : Type} [BEq α] [LawfulBEq α]
    (f : ι → α) (g : ι → β) (l : List ι) (acc : List (α × β)) (k : α)
    (h : (List.lookup k acc).isSome = true) :
    (List.lookup k
      (l.foldl (fun a x => dictInsert a (f x) (g x)) acc)).isSome = true := by
  induction l generalizing acc with
  | nil => simpa using h
  | cons x xs ih => exact ih _ (lookup_isSome_dictInsert _ _ _ _ h)

theorem lookup_isSome_foldl_dictInsert_of_mem {ι α β : Type} [BEq α]
    [LawfulBEq α] (f : ι → α) (g : ι → β) (l : List ι)
    (acc : List (α × β)) (x : ι) (hx : x ∈ l) :
    (List.lookup (f x)
      (l.foldl (fun a y => dictInsert a (f y) (g y)) acc)).isSome = true := by
  induction l generalizing acc with
  | nil => cases hx
  | cons y ys ih =>
      rcases List.mem_cons.mp hx with rfl | hmem
      · exact lookup_isSome_foldl_dictInsert f g ys _ _
          (lookup_isSome_dictInsert_self _ _ _)
      · exact ih _ hmem


/-! ### Claim C7: holiday spans and workday classification -/

theorem lookup_isSome_holidayFold {α : Type} [BEq α] [LawfulBEq α]
    (hl : List (String × List α)) (acc : List (α × String)) (k : α)
    (h : (List.lookup k acc).isSome = true) :
    (List.lookup k (hl.foldl
      (fun a nd => nd.2.foldl (fun a2 d => dictInsert a2 d nd.1) a)
      acc)).isSome = true := by
  induction hl generalizing acc with
  | nil => simpa using h
  | cons nd rest ih =>
      exact ih _ (lookup_isSome_foldl_dictInsert (fun d => d)
        (fun _ => nd.1) nd.2 _ _ h)

theorem lookup_isSome_holidayFold_of_mem {α : Type} [BEq α] [LawfulBEq α]
    (hl : List (String × List α)) (acc : List (α × String)) (k : α)
    (nd : String × List α) (hnd : nd ∈ hl) (hk : k ∈ nd.2) :
    (List.lookup k (hl.foldl
      (fun a x => x.2.foldl (fun a2 d => dictInsert a2 d x.1) a)
      acc)).isSome = true := by
  induction hl generalizing acc with
  | nil => cases hnd
  | cons x rest ih =>
      rcases List.mem_cons.mp hnd with rfl | hmem
      · exact lookup_isSome_holidayFold rest _ _
          (lookup_isSome_foldl_dictInsert_of_mem (fun d => d)
            (fun _ => nd.1) nd.2 _ _ hk)
      · exact ih _ hmem

/-- Claim C7 (amended): the extended span that `fixed_date_holidays`
computes for a fixed-date holiday is the single day when the holiday falls
on Tuesday through Thursday, Saturday through Monday when it falls on
Monday or on Sunday, and Friday through Sunday when it falls on Friday or
on Saturday; `is_workday` returns false for every Saturday and Sunday; and
`is_workday` returns false together with a holiday label for every date
inside the extended span of a holiday of that date's own calendar year
(the code consults only the query year's holiday table, so the claim's
stronger form fails on span days spilling into the previous December; see
the counterexample). -/
theorem C7_holiday_spans :
    (∀ h : ℤ,
      (weekday h = 1 ∨ weekday h = 2 ∨ weekday h = 3 →
        fixedSpan h = (h, h)) ∧
      (weekday h = 0 → fixedSpan h = (h - 2, h) ∧ weekday (h - 2) = 5) ∧
      (weekday h = 4 → fixedSpan h = (h, h + 2) ∧ weekday (h + 2) = 6) ∧
      (weekday h = 5 → fixedSpan h = (h - 1, h + 1) ∧
        weekday (h - 1) = 4 ∧ weekday (h + 1) = 6) ∧
      (weekday h = 6 → fixedSpan h = (h - 1, h + 1) ∧
        weekday (h - 1) = 5 ∧ weekday (h + 1) = 0)) ∧
    (∀ (special : List (ℤ × String)) (n : ℤ),
      weekday n = 5 ∨ weekday n = 6 → (isWorkday special n).1 = false) ∧
    (∀ (special : List (ℤ × String)) (n : ℤ) (name : String)
      (dates : List ℤ),
      (name, dates) ∈ holidaysThatYear (ordYear n).toNat → n ∈ dates →
      (isWorkday special n).1 = false ∧
        ((isWorkday special n).2).isSome = true) := by
  refine ⟨?_, ?_, ?_⟩
  · intro h
    refine ⟨?_, ?_, ?_, ?_, ?_⟩
    · intro hw
      unfold fixedSpan
      have hc : 1 ≤ weekday h ∧ weekday h ≤ 3 := by omega
      rw [if_pos hc]
    · intro hw
      unfold fixedSpan
      rw [hw]
      norm_num
      unfold weekday at *
      omega
    · intro hw
      unfold fixedSpan
      rw [hw]
      norm_num
      unfold weekday at *
      omega
    · intro hw
      unfold fixedSpan
      rw [hw]
      norm_num
      unfold weekday at *
      omega
    · intro hw
      unfold fixedSpan
      rw [hw]
      norm_num
      unfold weekday at *
      omega
  · intro special n hw
    unfold isWorkday
    cases hl : List.lookup n (customHolidays special n)
    · have h5 : weekday n ≥ 5 := by omega
      simp [h5]
    · simp
  · intro special n name dates hmem hn
    have hbase : (List.lookup n ((holidaysThatYear (ordYear n).toNat).foldl
        (fun acc nd => nd.2.foldl (fun acc2 d => dictInsert acc2 d nd.1) acc)
        [])).isSome = true :=
      lookup_isSome_holidayFold_of_mem _ _ _ (name, dates) hmem hn
    have hsome : (List.lookup n (customHolidays special n)).isSome = true := by
      unfold customHolidays
      exact lookup_isSome_foldl_dictInsert
        (fun p : ℤ × String => p.1) (fun p : ℤ × String => p.2) _ _ _ hbase
    obtain ⟨nm, hnm⟩ := Option.isSome_iff_exists.mp hsome
    unfold isWorkday
    rw [hnm]
    exact ⟨rfl, rfl⟩

/-- Claim C7 counterexample: January 1 2022 falls on a Saturday, so its
extended span is Friday 2021-12-31 through Sunday 2022-01-02; yet
`is_workday` (here with an empty special-holidays table) classifies
2021-12-31 as a workday with no label, because it consults only the
holiday table of the query date's own year. -/
theorem C7_counterexample :
    weekday (ymd2ord 2022 1 1) = 5 ∧
    ymd2ord 2021 12 31 ∈ generateDates (fixedSpan (ymd2ord 2022 1 1)).1
      (fixedSpan (ymd2ord 2022 1 1)).2 ∧
    isWorkday [] (ymd2ord 2021 12 31) = (true, none) := by decide

/-- Claim C7 witness: the span/workday theorem applied at concrete dates,
namely New Year 2024 (a Monday), a Saturday, and Independence Day 2024
(a Thursday, inside its own span). -/
theorem C7_witness :
    (fixedSpan (ymd2ord 2024 1 1) = (ymd2ord 2024 1 1 - 2, ymd2ord 2024 1 1) ∧
      weekday (ymd2ord 2024 1 1 - 2) = 5) ∧
    (isWorkday [] (ymd2ord 2024 1 6)).1 = false ∧
    ((isWorkday [] (ymd2ord 2024 7 4)).1 = false ∧
      ((isWorkday [] (ymd2ord 2024 7 4)).2).isSome = true) :=
  ⟨(C7_holiday_spans.1 (ymd2ord 2024 1 1)).2.1 (by decide),
   C7_holiday_spans.2.1 [] (ymd2ord 2024 1 6) (Or.inl (by decide)),
   C7_holiday_spans.2.2 [] (ymd2ord 2024 7 4) "Independence Day"
     (generateDates (fixedSpan (ymd2ord 2024 7 4)).1
       (fixedSpan (ymd2ord 2024 7 4)).2) (by decide) (by decide)⟩

/-! ### Claims C8 and C9: quarterly week splitter -/

theorem cmpDict_eq_false_of_keysetEq (d1 d2 : List (String × PyVal))
    (h : keysetEq d1 d2 = false) : cmpDict d1 d2 = false := by
  rw [cmpDict, h]
  simp

/-- Claim C8: the split/recombine round trip fails on the two-day input
`janSplitInput`.  The source line
`year, week_number = current_date.isocalendar()[0], ...` overwrites the
loop variable `year`, so after 2023-01-01 (ISO year 2022) the day key `2`
is built as the date 2022-01-02; recombining the written weeks therefore
yields the keys {2022-01-02, 2023-01-01} while the flattened input has
{2023-01-01, 2023-01-02}, and the end-of-run assertion
`assert compare_dicts(combined_data, flatten_dict(data))` fails. -/
theorem C8_roundtrip_fails :
    dictKeys (flattenDict janSplitInput) = ["2023-01-01", "2023-01-02"] ∧
    combineWeekly
        ((saveWeeklyData (splitIntoWeeks janSplitInput)).map Prod.snd) =
      Except.ok combinedJanSplit ∧
    dictKeys combinedJanSplit = ["2022-01-02", "2023-01-01"] ∧
    cmpDict combinedJanSplit (flattenDict janSplitInput) = false :=
  ⟨rfl, rfl, rfl, cmpDict_eq_false_of_keysetEq _ _ (by decide)⟩

/-- Claim C9: on `sevenWeekInput` the splitter produces seven week files;
since `save_weekly_data` tests `len(weekly_data) < 7` — the number of
weeks in the whole output, not the number of day records in the week —
no filename carries the `-partial` suffix, although week 2023-week01
holds only 3 < 7 day records (and every other week only one). -/
theorem C9_partial_suffix_bug :
    (saveWeeklyData (splitIntoWeeks sevenWeekInput)).map Prod.fst =
      ["2023-week01.json", "2023-week02.json", "2023-week03.json",
       "2023-week04.json", "2023-week05.json", "2023-week06.json",
       "2023-week07.json"] ∧
    (List.lookup "2023-week01" (splitIntoWeeks sevenWeekInput)).map
        List.length = some 3 ∧
    (3 : ℕ) < 7 :=
  ⟨rfl, rfl, by norm_num⟩

/-! ### Claim C10: in-place mutation by schedule construction -/

theorem except_bind_ok {ε α β : Type} (x : Except ε α) (f : α → Except ε β)
    (b : β) (h : x >>= f = .ok b) : ∃ a, x = .ok a ∧ f a = .ok b := by
  cases x with
  | error e => simp [Bind.bind, Except.bind] at h
  | ok a => exact ⟨a, rfl, by simpa [Bind.bind, Except.bind] using h⟩

theorem cleanEntry_getD (es es' : List Entry)
    (h : es.mapM cleanEntry = .ok es') (d : ℕ) :
    cleanEntry (es.getD d .none) = .ok (es'.getD d .none) := by
  induction es generalizing es' d with
  | nil =>
      have hnil : es' = [] := by
        simpa [List.mapM, List.mapM.loop, pure, Except.pure] using h.symm
      subst hnil
      simp [cleanEntry]
  | cons e rest ih =>
      rw [List.mapM_cons] at h
      obtain ⟨b, hb, h⟩ := except_bind_ok _ _ _ h
      obtain ⟨bs, hbs, h⟩ := except_bind_ok _ _ _ h
      have hcons : es' = b :: bs := by
        simp only [pure, Except.pure, Except.ok.injEq] at h
        exact h.symm
      subst hcons
      match d with
      | 0 => simpa using hb
      | Nat.succ d0 => simpa using ih bs hbs d0

/-- Claim C10: constructing a `DoctorSchedule` from in-memory raw data
mutates the caller's data in place.  `__init__` copies only the top-level
mapping (`data_source.copy()` is shallow), so the per-day lists inside are
shared with the caller; `transform_rawdata` removes one occurrence of the
admin sentinel `'AD'` and then one occurrence of the placeholder `'X'`
from every list-valued TURN_ORDER entry (when present), leaves scalar
entries and all non-TURN_ORDER fields unchanged, and therefore the list
objects the caller passed in are changed by construction. -/
theorem C10_construction_mutates_input (r r' : RawSched)
    (h : mutateRaw r = .ok r') :
    (∀ (t : TurnOrder) (d : ℕ) (xs : List String), r.turn t d = .l xs →
      r'.turn t d = .l ((xs.erase ADMIN_IDENTIFIER).erase PLACEHOLDER)) ∧
    (∀ (t : TurnOrder) (d : ℕ) (v : String), r.turn t d = .s v →
      r'.turn t d = .s v) ∧
    r'.order = r.order ∧ r'.dayType = r.dayType ∧ r'.offsite = r.offsite ∧
    r'.doctors = r.doctors ∧ r'.periodStart = r.periodStart := by
  unfold mutateRaw at h
  obtain ⟨pc, hpc, h⟩ := except_bind_ok _ _ _ h
  obtain ⟨ph, hph, h⟩ := except_bind_ok _ _ _ h
  obtain ⟨pl, hpl, h⟩ := except_bind_ok _ _ _ h
  obtain ⟨pr, hpr, h⟩ := except_bind_ok _ _ _ h
  obtain ⟨un, hun, h⟩ := except_bind_ok _ _ _ h
  obtain ⟨ol, hol, h⟩ := except_bind_ok _ _ _ h
  obtain ⟨oc, hoc, h⟩ := except_bind_ok _ _ _ h
  obtain ⟨ad, had, h⟩ := except_bind_ok _ _ _ h
  have hr' : r' =
      { r with
        postCall := pc
        postHoliday := ph
        postLate := pl
        preCall := pr
        unassigned := un
        onLate := ol
        onCall := oc
        admin := ad } := by
    simp only [pure, Except.pure, Except.ok.injEq] at h
    exact h.symm
  have key : ∀ (t : TurnOrder) (d : ℕ),
      cleanEntry (r.turn t d) = .ok (r'.turn t d) := by
    intro t d
    cases t <;> rw [hr'] <;> simp only [RawSched.turn] <;>
      first
        | exact cleanEntry_getD _ _ hpc d
        | exact cleanEntry_getD _ _ hph d
        | exact cleanEntry_getD _ _ hpl d
        | exact cleanEntry_getD _ _ hpr d
        | exact cleanEntry_getD _ _ hun d
        | exact cleanEntry_getD _ _ hol d
        | exact cleanEntry_getD _ _ hoc d
        | exact cleanEntry_getD _ _ had d
  refine ⟨?_, ?_, by rw [hr'], by rw [hr'], by rw [hr'], by rw [hr'],
    by rw [hr']⟩
  · intro t d xs hx
    have hk := key t d
    rw [hx] at hk
    simp only [cleanEntry, Except.ok.injEq] at hk
    exact hk.symm
  · intro t d v hx
    have hk := key t d
    rw [hx] at hk
    simp only [cleanEntry] at hk
    by_cases h1 : strContainsSub v ADMIN_IDENTIFIER
    · simp [h1] at hk
    · by_cases h2 : strContainsSub v PLACEHOLDER
      · simp [h1, h2] at hk
      · rw [if_neg h1, if_neg h2] at hk
        simp only [Except.ok.injEq] at hk
        exact hk.symm

/-- Concrete raw week for the claim C10 witness: a single workday whose
Unassigned list contains the admin sentinel and the placeholder. -/
def mutEx : RawSched :=
  { order := ["Mon"], dayType := ["Workday"],
    postCall := [.none], postHoliday := [.none], postLate := [.none],
    preCall := [.none], unassigned := [.l ["AD", "DD", "X", "EE"]],
    onLate := [.s "BB"], onCall := [.s "AA"], admin := [.l []],
    offsite := [[]], doctors := ["AA", "BB", "DD", "EE"],
    periodStart := ymd2ord 2023 1 9 }

/-- The caller-visible data after constructing a schedule from `mutEx`. -/
def mutExAfter : RawSched :=
  { mutEx with unassigned := [.l ["DD", "EE"]] }

/-- Claim C10 witness: the mutation theorem applied to `mutEx` — the
caller's Unassigned list for Monday has lost one `'AD'` and one `'X'`,
while the scalar OnCall entry and the Offsite field are untouched. -/
theorem C10_witness :
    mutExAfter.turn .unassigned 0 =
      .l (((["AD", "DD", "X", "EE"].erase ADMIN_IDENTIFIER).erase
        PLACEHOLDER)) ∧
    mutExAfter.turn .onCall 0 = .s "AA" ∧
    mutExAfter.offsite = mutEx.offsite :=
  ⟨(C10_construction_mutates_input mutEx mutExAfter (by rfl)).1
      .unassigned 0 ["AD", "DD", "X", "EE"] rfl,
   (C10_construction_mutates_input mutEx mutExAfter (by rfl)).2.1
      .onCall 0 "AA" rfl,
   (C10_construction_mutates_input mutEx mutExAfter (by rfl)).2.2.2.2.1⟩

/-! ### Claim C4: the charge order of a day -/

theorem assignFold_scalar_prefix (ts : List (TurnOrder × Entry))
    (h : ∀ te ∈ ts, te.2.scalarOrNone = true)
    (acc : List Assign) (t0 : ℕ) :
    ∃ extra : List Assign,
      ts.foldl assignStep (acc, t0) = (acc ++ extra, t0 + extra.length) ∧
      List.map Assign.pt extra = List.map Pt.i (List.range' t0 extra.length) ∧
      (∀ a ∈ extra, a.shift ∈ ts.map Prod.fst) ∧
      extra.length = ts.countP (fun te => decide (te.2 ≠ Entry.none)) := by
  induction ts generalizing acc t0 with
  | nil => exact ⟨[], by simp, by simp, by simp, by simp⟩
  | cons te rest ih =>
      have hte := h te (List.mem_cons_self _ _)
      have hrest : ∀ x ∈ rest, x.2.scalarOrNone = true :=
        fun x hx => h x (List.mem_cons_of_mem _ hx)
      cases hE : te.2 with
      | l xs => rw [hE] at hte; simp [Entry.scalarOrNone] at hte
      | none =>
          obtain ⟨extra, he, hpts, hsh, hlen⟩ := ih hrest acc t0
          refine ⟨extra, ?_, hpts, ?_, ?_⟩
          · rw [List.foldl_cons]
            have hstep : assignStep (acc, t0) te = (acc, t0) := by
              simp [assignStep, hE]
            rw [hstep]
            exact he
          · intro a ha
            simp only [List.map_cons]
            exact List.mem_cons_of_mem _ (hsh a ha)
          · rw [List.countP_cons]
            simp [hE, hlen]
      | s v =>
          obtain ⟨extra, he, hpts, hsh, hlen⟩ :=
            ih hrest (acc ++ [⟨v, .i t0, te.1⟩]) (t0 + 1)
          refine ⟨⟨v, .i t0, te.1⟩ :: extra, ?_, ?_, ?_, ?_⟩
          · rw [List.foldl_cons]
            have hstep : assignStep (acc, t0) te =
                (acc ++ [⟨v, .i t0, te.1⟩], t0 + 1) := by
              simp [assignStep, hE]
            rw [hstep, he]
            refine Prod.ext ?_ ?_
            · simp
            · simp only [List.length_cons]
              omega
          · simp only [List.map_cons, List.length_cons, List.range'_succ]
            rw [hpts]
          · intro a ha
            rcases List.mem_cons.mp ha with rfl | hmem
            · simp
            · simp only [List.map_cons]
              exact List.mem_cons_of_mem _ (hsh a hmem)
          · rw [List.countP_cons]
            simp [hE, hlen]

theorem filterMap_if_all {α β : Type} (p : α → Prop) [DecidablePred p]
    (g : α → β) (l : List α) (h : ∀ a ∈ l, p a) :
    l.filterMap (fun a => if p a then some (g a) else Option.none) =
      l.map g := by
  induction l with
  | nil => simp
  | cons a as ih =>
      simp [h a (List.mem_cons_self _ _),
        ih (fun x hx => h x (List.mem_cons_of_mem _ hx))]

theorem filterMap_if_none {α β : Type} (p : α → Prop) [DecidablePred p]
    (g : α → β) (l : List α) (h : ∀ a ∈ l, ¬ p a) :
    l.filterMap (fun a => if p a then some (g a) else Option.none) = [] := by
  induction l with
  | nil => simp
  | cons a as ih =>
      simp [h a (List.mem_cons_self _ _),
        ih (fun x hx => h x (List.mem_cons_of_mem _ hx))]


theorem enum_map_add {α : Type} (l : List α) (lo : ℕ) :
    (l.enum).map (fun p => lo + p.1) = List.range' lo l.length := by
  have h1 : (l.enum).map (fun p => lo + p.1) =
      ((l.enum).map Prod.fst).map (fun i => lo + i) := by
    rw [List.map_map]
    rfl
  rw [h1, List.enum_map_fst, ← List.range'_eq_map_range]


/-- Claim C4 (amended): `charge_order(day)` is the Whine-pool size plus
the number of preassigned peel positions strictly below that size plus
two.  For a day in the shape the deriver produces — scalar-or-null
transition roles, a list-valued Unassigned pool, scalar OnLate and
OnCall — with `m` filled transition roles, `1 ≤ m ≤ |Whine|+1`, the value
equals `m + |Whine|`: the LARGEST peel position the Unassigned pool may
occupy (positions `m+1 … m+|Whine|`), one less than the smallest peel
position strictly greater than every Unassigned position, where the claim
places it. -/
theorem C4_charge_order (r : RawSched) (d : ℕ) (lc cc : String)
    (ws : List String)
    (h1 : (r.turn .postCall d).scalarOrNone = true)
    (h2 : (r.turn .postHoliday d).scalarOrNone = true)
    (h3 : (r.turn .postLate d).scalarOrNone = true)
    (h4 : (r.turn .preCall d).scalarOrNone = true)
    (hws : r.turn .unassigned d = .l ws)
    (hlc : r.turn .onLate d = .s lc)
    (hcc : r.turn .onCall d = .s cc)
    (hm1 : 1 ≤ numPre r d) (hm2 : numPre r d ≤ ws.length + 1) :
    chargeOrder r d = numPre r d + ws.length ∧
    whinePoints r d = List.range' (numPre r d + 1) ws.length := by
  classical
  set m := numPre r d with hm
  set k := ws.length with hkdef
  -- split the TURN_ORDER fold into the scalar prefix and the tail
  have hsplit : TURN_ORDER.map (fun t => (t, r.turn t d)) =
      [(.postCall, r.turn .postCall d), (.postHoliday, r.turn .postHoliday d),
       (.postLate, r.turn .postLate d), (.preCall, r.turn .preCall d)] ++
      [(.unassigned, r.turn .unassigned d), (.onLate, r.turn .onLate d),
       (.onCall, r.turn .onCall d), (.admin, r.turn .admin d)] := rfl
  obtain ⟨extra, he, hpts, hsh, hlen⟩ := assignFold_scalar_prefix
    [(.postCall, r.turn .postCall d), (.postHoliday, r.turn .postHoliday d),
     (.postLate, r.turn .postLate d), (.preCall, r.turn .preCall d)]
    (by
      intro te hte
      simp only [List.mem_cons, List.not_mem_nil, or_false] at hte
      rcases hte with rfl | rfl | rfl | rfl
      · exact h1
      · exact h2
      · exact h3
      · exact h4) [] 1
  have hlenm : extra.length = m := by
    rw [hlen, hm]
    simp [numPre, List.countP_cons]
  have hturnun : r.unassigned.getD d .none = Entry.l ws := hws
  have hwhine : whine r d = ws := by
    unfold whine
    rw [hturnun]
  -- compute the whole day's assignment list
  have hday : ∃ adm : List Assign, dayAssignments r d =
      extra ++ ws.map (fun x => ⟨x, .rng (1 + m) k, .unassigned⟩) ++
      [⟨lc, .i (1 + m + k), .onLate⟩, ⟨cc, .i (1 + m + k + 1), .onCall⟩] ++
      adm ∧ ∀ a ∈ adm, a.shift = TurnOrder.admin := by
    unfold dayAssignments
    rw [hsplit, List.foldl_append, he, hlenm]
    simp only [List.nil_append, List.foldl_cons, List.foldl_nil]
    cases hA : r.turn .admin d with
    | none =>
        refine ⟨[], ?_, by simp⟩
        simp [assignStep, hws, hlc, hcc, hA, hkdef]
    | s v =>
        refine ⟨[⟨v, .i (1 + m + k + 2), .admin⟩], ?_, by simp⟩
        simp [assignStep, hws, hlc, hcc, hA, hkdef]
    | l xs =>
        refine ⟨xs.map (fun x => ⟨x, .i ADMIN_POINTS, .admin⟩), ?_, by
          intro a ha
          simp only [List.mem_map] at ha
          obtain ⟨x, _, rfl⟩ := ha
          rfl⟩
        simp [assignStep, hws, hlc, hcc, hA, hkdef]
  obtain ⟨adm, hdayEq, hadm⟩ := hday
  have hpre_shift : ∀ a ∈ extra,
      a.shift ≠ TurnOrder.unassigned ∧ a.shift ≠ TurnOrder.admin := by
    intro a ha
    have hsm := hsh a ha
    simp only [List.map_cons, List.map_nil, List.mem_cons,
      List.not_mem_nil, or_false] at hsm
    rcases hsm with hca | hca | hca | hca <;> rw [hca] <;> exact ⟨by simp, by simp⟩
  have hpre_pt : ∀ a ∈ extra, ∃ o, a.pt = .i o ∧ o ∈ List.range' 1 extra.length := by
    intro a ha
    have hmem : a.pt ∈ List.map Assign.pt extra := List.mem_map_of_mem _ ha
    rw [hpts] at hmem
    simp only [List.mem_map] at hmem
    obtain ⟨o, ho, hoe⟩ := hmem
    exact ⟨o, hoe.symm, ho⟩
  have hpa : preassigned r d =
      extra.map (fun a => (a.pt, a.doctor)) ++
      [(Pt.i (1 + m + k), lc), (Pt.i (1 + m + k + 1), cc)] := by
    unfold preassigned
    rw [hdayEq]
    rw [List.filterMap_append, List.filterMap_append, List.filterMap_append]
    rw [filterMap_if_all
      (fun a : Assign => a.shift ≠ TurnOrder.unassigned ∧ a.shift ≠ TurnOrder.admin)
      (fun a => (a.pt, a.doctor)) extra hpre_shift]
    rw [filterMap_if_none
      (fun a : Assign => a.shift ≠ TurnOrder.unassigned ∧ a.shift ≠ TurnOrder.admin)
      (fun a => (a.pt, a.doctor))
      (ws.map (fun x => ⟨x, .rng (1 + m) k, .unassigned⟩))
      (by
        intro a ha
        simp only [List.mem_map] at ha
        obtain ⟨x, _, rfl⟩ := ha
        simp)]
    rw [filterMap_if_none
      (fun a : Assign => a.shift ≠ TurnOrder.unassigned ∧ a.shift ≠ TurnOrder.admin)
      (fun a => (a.pt, a.doctor)) adm
      (by
        intro a ha
        have := hadm a ha
        simp [this])]
    simp
  have hfilter_extra : (extra.map (fun a => (a.pt, a.doctor))).filter
      (fun p => match p.1 with
        | Pt.i o => decide (o < ws.length + 2)
        | Pt.rng _ _ => false) = extra.map (fun a => (a.pt, a.doctor)) := by
    rw [List.filter_eq_self]
    intro p hp
    simp only [List.mem_map] at hp
    obtain ⟨a, ha, rfl⟩ := hp
    obtain ⟨o, hoi, hor⟩ := hpre_pt a ha
    simp only [hoi, decide_eq_true_eq]
    have hb := List.mem_range'.mp hor
    omega
  have hco : chargeOrder r d = m + k := by
    unfold chargeOrder
    simp only [hwhine]
    rw [hpa, List.filter_append, hfilter_extra]
    have c1 : (decide (1 + m + k < ws.length + 2)) = false := by
      simp only [decide_eq_false_iff_not]
      omega
    have c2 : (decide (1 + m + k + 1 < ws.length + 2)) = false := by
      simp only [decide_eq_false_iff_not]
      omega
    simp only [List.filter_cons, c1, c2, List.filter_nil]
    simp
    omega
  have hfilterW : (dayAssignments r d).filter
      (fun a => a.shift == TurnOrder.unassigned) =
      ws.map (fun x => ⟨x, .rng (1 + m) k, .unassigned⟩) := by
    rw [hdayEq, List.filter_append, List.filter_append, List.filter_append]
    have e1 : extra.filter (fun a => a.shift == TurnOrder.unassigned) = [] := by
      rw [List.filter_eq_nil_iff]
      intro a ha
      have := (hpre_shift a ha).1
      simp [this]
    have e2 : (ws.map (fun x =>
        (⟨x, .rng (1 + m) k, .unassigned⟩ : Assign))).filter
        (fun a => a.shift == TurnOrder.unassigned) =
        ws.map (fun x => ⟨x, .rng (1 + m) k, .unassigned⟩) := by
      rw [List.filter_eq_self]
      intro a ha
      simp only [List.mem_map] at ha
      obtain ⟨x, _, rfl⟩ := ha
      simp
    have e4 : adm.filter (fun a => a.shift == TurnOrder.unassigned) = [] := by
      rw [List.filter_eq_nil_iff]
      intro a ha
      have := hadm a ha
      simp [this]
    rw [e1, e2, e4]
    simp
  have hwp : whinePoints r d = List.range' (1 + m) k := by
    unfold whinePoints
    rw [hfilterW, List.enum_map, List.map_map]
    have hfun : ((fun p : ℕ × Assign => ptAt p.2.pt p.1) ∘
        Prod.map id (fun x => (⟨x, .rng (1 + m) k, .unassigned⟩ : Assign))) =
        (fun p : ℕ × String => (1 + m) + p.1) := by
      funext p
      simp [Function.comp, Prod.map, ptAt]
    rw [hfun, enum_map_add, hkdef]
  refine ⟨hco, ?_⟩
  rw [hwp]
  congr 1
  omega


/-- Claim C4 counterexample: on `chargeEx` (one filled transition role,
two Unassigned physicians) the Unassigned pool occupies peel positions
{2, 3}; the smallest position strictly greater than both is 4, but
`charge_order` is 3 — itself an Unassigned position. -/
theorem C4_counterexample :
    whinePoints chargeEx 0 = [2, 3] ∧
    chargeOrder chargeEx 0 = 3 ∧
    (∀ p ∈ whinePoints chargeEx 0, p < 4) ∧
    ¬ (∀ p ∈ whinePoints chargeEx 0, p < chargeOrder chargeEx 0) := by
  decide

/-- Claim C4 witness: the amended theorem applied to `chargeEx`. -/
theorem C4_witness :
    chargeOrder chargeEx 0 = numPre chargeEx 0 + 2 ∧
    whinePoints chargeEx 0 = List.range' (numPre chargeEx 0 + 1) 2 :=
  C4_charge_order chargeEx 0 "BB" "AA" ["DD", "EE"]
    (by decide) (by decide) (by decide) (by decide)
    rfl rfl rfl (by decide) (by decide)

/-! ### Claim C5: what the validator does and does not enforce -/

/-- Claim C5 counterexample: `valEx` passes `validate()` (construction
leaves it unchanged and every check succeeds), yet the union of its
potential-charge and potential-cardiac sets on the single workday is the
singleton {AA} — the validator never checks the size-two union invariant
(that check lives only in `AllocationModel.debug_constraints`). -/
theorem C5_counterexample :
    mutateRaw valEx = .ok valEx ∧
    validateOk valStaff [] valEx = true ∧
    ((potentialCharge valStaff valEx 0 ++
      potentialCardiac valStaff valEx 0).dedup).length = 1 := by
  refine ⟨by rfl, by rfl, by rfl⟩

/-- Claim C5 (amended): a schedule accepted by `validate()` has a
non-empty potential-charge set and a non-empty potential-cardiac set on
every workday; the union-size-two condition is NOT enforced by the
validator (see the counterexample), so an accepted schedule may have
`potential_charge = potential_cardiac = {a}` for a single physician. -/
theorem C5_validate_nonempty (staff : Staff) (special : List (ℤ × String))
    (r : RawSched) (h : validateOk staff special r = true) :
    ∀ d ∈ weekdayIdx r,
      potentialCharge staff r d ≠ [] ∧ potentialCardiac staff r d ≠ [] := by
  intro d hd
  simp only [validateOk, Bool.and_eq_true, List.all_eq_true] at h
  obtain ⟨⟨⟨⟨⟨h1, h2⟩, _⟩, _⟩, _⟩, _⟩ := h
  constructor
  · have hx := h1 d hd
    simp only [Bool.not_eq_eq_eq_not, Bool.not_false] at hx
    intro hnil
    rw [hnil] at hx
    simp at hx
  · have hx := h2 d hd
    simp only [Bool.not_eq_eq_eq_not, Bool.not_false] at hx
    intro hnil
    rw [hnil] at hx
    simp at hx

/-- Claim C5 witness: the amended theorem applied to the accepted
schedule `valEx` on its Monday. -/
theorem C5_witness :
    potentialCharge valStaff valEx 0 ≠ [] ∧
    potentialCardiac valStaff valEx 0 ≠ [] :=
  C5_validate_nonempty valStaff [] valEx (by rfl) 0 (by decide)

/-! ### Claim C6: dropping transition roles that collide with the call
roles -/

theorem guardRole_ne (v : Option String) (off : List String)
    (oc ol : Option String) (x : String)
    (h : guardRole v off oc ol = some x) : some x ≠ oc ∧ some x ≠ ol := by
  unfold guardRole at h
  split_ifs at h with hc
  rw [h] at hc
  push_neg at hc
  exact hc.2

theorem guardRoleTruthy_ne (v : Option String) (off : List String)
    (oc ol : Option String) (x : String)
    (h : guardRoleTruthy v off oc ol = some x) :
    some x ≠ oc ∧ some x ≠ ol := by
  unfold guardRoleTruthy at h
  split_ifs at h with hc
  rw [h] at hc
  push_neg at hc
  exact hc.2.2

theorem dropOffsite_not_mem (v : Option String) (off : List String)
    (x : String) (h : dropOffsite v off = some x) : x ∉ off := by
  unfold dropOffsite at h
  split_ifs at h with hc
  rw [h] at hc
  simpa [optMem] using hc

/-- Claim C6 (amended): four of the five derived transition roles —
PostHoliday, PostLate, PreCall and PreHoliday — are dropped (emitted as
null) when the candidate equals the same day's OnCall or OnLate
physician; the PostCall candidate is only checked against the off-site
list, so a PostCall equal to the day's OnCall or OnLate is emitted
anyway (see the counterexample). -/
theorem C6_transition_role_drops (today : ShiftRec) (isTomorrow : Bool)
    (nextWeekday : ShiftRec) (nextWeekendAM : ShiftRec)
    (isYesterday : Bool) (prevWeekday : ShiftRec)
    (prevWeekendAM : ShiftRec) (prevWeekendPM : ShiftRec) :
    (∀ x : String,
      (deriveWorkday today isTomorrow nextWeekday nextWeekendAM isYesterday
        prevWeekday prevWeekendAM prevWeekendPM).postHoliday = some x →
      some x ≠ today.call1 ∧ some x ≠ today.call2) ∧
    (∀ x : String,
      (deriveWorkday today isTomorrow nextWeekday nextWeekendAM isYesterday
        prevWeekday prevWeekendAM prevWeekendPM).postLate = some x →
      some x ≠ today.call1 ∧ some x ≠ today.call2) ∧
    (∀ x : String,
      (deriveWorkday today isTomorrow nextWeekday nextWeekendAM isYesterday
        prevWeekday prevWeekendAM prevWeekendPM).preCall = some x →
      some x ≠ today.call1 ∧ some x ≠ today.call2) ∧
    (∀ x : String,
      (deriveWorkday today isTomorrow nextWeekday nextWeekendAM isYesterday
        prevWeekday prevWeekendAM prevWeekendPM).preHoliday = some x →
      some x ≠ today.call1 ∧ some x ≠ today.call2) ∧
    (∀ x : String,
      (deriveWorkday today isTomorrow nextWeekday nextWeekendAM isYesterday
        prevWeekday prevWeekendAM prevWeekendPM).postCall = some x →
      x ∉ (deriveWorkday today isTomorrow nextWeekday nextWeekendAM
        isYesterday prevWeekday prevWeekendAM prevWeekendPM).offsiteOut) := by
  refine ⟨?_, ?_, ?_, ?_, ?_⟩ <;> intro x <;>
    simp only [deriveWorkday] <;> intro hx
  · exact guardRoleTruthy_ne _ _ _ _ x hx
  · exact guardRole_ne _ _ _ _ x hx
  · exact guardRole_ne _ _ _ _ x hx
  · exact guardRole_ne _ _ _ _ x hx
  · exact dropOffsite_not_mem _ _ x hx

/-- Claim C6 counterexample: prev workday's OnCall AA equals today's
OnCall AA (the rare back-to-back-call case flagged with a TODO in the
source); the emitted PostCall is AA, not null — PostCall is never checked
against the day's OnCall/OnLate. -/
theorem C6_counterexample :
    (deriveWorkday ⟨some "AA", some "BB", Option.none, []⟩ true
      ⟨some "CC", some "DD", Option.none, []⟩
      ⟨Option.none, Option.none, Option.none, []⟩ true
      ⟨some "AA", some "EE", Option.none, []⟩
      ⟨Option.none, Option.none, Option.none, []⟩
      ⟨Option.none, Option.none, Option.none, []⟩).postCall = some "AA" ∧
    (deriveWorkday ⟨some "AA", some "BB", Option.none, []⟩ true
      ⟨some "CC", some "DD", Option.none, []⟩
      ⟨Option.none, Option.none, Option.none, []⟩ true
      ⟨some "AA", some "EE", Option.none, []⟩
      ⟨Option.none, Option.none, Option.none, []⟩
      ⟨Option.none, Option.none, Option.none, []⟩).onCall = some "AA" := by
  exact ⟨rfl, rfl⟩

/-- Claim C6 witness: the amended theorem applied to a Monday after a
long weekend whose Sunday-AM OnCall FF is emitted as PostHoliday — it
differs from both of today's call physicians. -/
theorem C6_witness :
    some "FF" ≠ some "AA" ∧ some "FF" ≠ some "BB" :=
  (C6_transition_role_drops ⟨some "AA", some "BB", Option.none, []⟩ true
      ⟨some "CC", some "DD", Option.none, []⟩
      ⟨Option.none, Option.none, Option.none, []⟩ false
      ⟨Option.none, Option.none, Option.none, []⟩
      ⟨some "FF", Option.none, Option.none, []⟩
      ⟨some "GG", some "HH", Option.none, []⟩).1 "FF" (by decide)

/-! ### Claims C1–C3: the optimization model -/

/-- Claim C1: constructing the optimization model NEVER completes.
`_set_decision_variables` — the first step of `AllocationModel.__init__`
— contains leftover debug code ending in `assert 1==2`, so the
constructor raises `AssertionError` on every input before any constraint
or objective is created, and `solve()` is unreachable. -/
theorem C1_init_always_raises (data : AllocData) :
    allocInit data = .error "AssertionError: assert 1==2" := rfl

/-- Claim C2 counterexample: with only `max_w = 1` set, the objective the
code computes is `-0.1` while the claim's weights (β = 0.01) give
`-0.01`; the code uses `beta = 0.1`, not `0.01`. -/
theorem C2_counterexample :
    totalObj objExData objExVal ≠
      1 * equityObj objExData objExVal -
        (1 / 100) * cardiacChargeObj objExVal +
        (1 / 1000) * priorityChargeObj objExData objExVal := by
  norm_num [totalObj, equityObj, cardiacChargeObj, priorityChargeObj,
    objExData, objExVal, callAndLateCallDoctors]

/-- Claim C2 (amended): the objective is
`total = α·equity − β·role_concentration + γ·charge_preference` with
`role_concentration = max_w + max_z + max_wz` and `charge_preference`
summing `z[a, d]` over charge-capable physicians who are the day's
OnCall or OnLate physician, with weights `α = 1`, `β = 0.1` (not the
claimed 0.01) and `γ = 0.001`. -/
theorem C2_objective_weights (data : AllocData) (v : AllocVal) :
    totalObj data v =
      equityObj data v - (1 / 10) * (v.maxW + v.maxZ + v.maxWZ) +
      (1 / 1000) * (data.days.map (fun day =>
        ((data.chargeDoctors.filter (fun a =>
          decide (a = data.onCallOf day ∨ a = data.onLateOf day))).map
          (fun a => v.z a day)).sum)).sum := by
  have hfil : ∀ day : String,
      data.chargeDoctors.filter (fun a =>
        decide (a ∈ callAndLateCallDoctors data day)) =
      data.chargeDoctors.filter (fun a =>
        decide (a = data.onCallOf day ∨ a = data.onLateOf day)) := by
    intro day
    apply List.filter_congr
    intro a _
    simp [callAndLateCallDoctors]
  unfold totalObj cardiacChargeObj priorityChargeObj
  simp only [hfil]
  ring

/-- Claim C3 counterexample: the code creates one equity indicator per
working physician (`addVars(working_doctors)`), not one per tolerance
and physician; on a one-physician instance the code's family has one
variable where the claimed three-tolerance family has three. -/
theorem C3_counterexample :
    (yVarIndices bandExData).length = 1 ∧
    (yVarIndicesSpec bandExData).length = 3 ∧ (1 : ℕ) ≠ 3 := by
  decide

/-- Claim C3 (amended): the model contains a single band-constraint
family (tolerance one, not one family per ε ∈ {1, 0.5, 0.2}): for every
working physician one binary `y[doctor]`, constrained via big-M
linearization with `M = |days| · |orders|` so that `y[doctor] = 1`
forces the physician's total points to lie within one unit of the
central value; the objective sums these indicators unweighted. -/
theorem C3_equity_band (data : AllocData) (v : AllocVal) (a : String)
    (hC : equityConstraints data v) (ha : a ∈ data.workingDoctors)
    (hy : v.y a = 1) :
    |totalOrder data v a - v.centralValue| ≤ 1 := by
  obtain ⟨h1, h2⟩ := hC a ha
  rw [hy] at h1 h2
  norm_num at h1 h2
  rw [abs_le]
  constructor <;> linarith

/-- Claim C3 witness: the band theorem applied to the one-physician
instance `bandExData` / `bandExVal` (total order 1, central value 1). -/
theorem C3_witness :
    |totalOrder bandExData bandExVal "AA" - bandExVal.centralValue| ≤ 1 :=
  C3_equity_band bandExData bandExVal "AA"
    (by
      intro a ha
      simp only [bandExData, List.mem_singleton] at ha
      subst ha
      constructor <;>
        norm_num [totalOrder, totalOrderBase, adminTally, bigM,
          bandExData, bandExVal])
    (by decide) rfl

end APAP
